import Mathlib

/-!
Verification of the timer state derivation and classification engine of the
Axiom_timers repository (src/api/index.py and src/api/timezone_utils.py).

Time is modelled at the resolution of Python `datetime`: integers counting
microseconds.  An "instant" is a count of microseconds since the Unix epoch.
Python `//` and `%` on integers are floor division and floor modulus, which
coincide with Lean's `/` and `%` on `Int`; Python `int(x)` applied to the
float `td.total_seconds()` truncates toward zero, which is modelled
explicitly by `intSeconds`.
-/

namespace AxiomTimers

/-- Convert a count of minutes to microseconds:
models Python `timedelta(minutes=m)` at microsecond resolution. -/
def minutesToMicros (m : Int) : Int := m * 60 * 1000000

/-- Models Python `int(td.total_seconds())` for a `timedelta` of `micros`
microseconds: division by 10^6 truncated toward zero (`int()` truncates the
float toward zero). -/
def intSeconds (micros : Int) : Int :=
  if 0 ≤ micros then micros / 1000000 else -((-micros) / 1000000)

/-- Abstract content of a stored timestamp string, as seen by
`datetime.fromisoformat`:
* `empty`   — the empty string (falsy in Python, and rejected by the parser);
* `invalid` — a non-empty string that `fromisoformat` rejects (raises);
* `valid`   — a well-formed ISO-8601 string denoting wall-clock time `wall`
  (microseconds since the epoch of the written clock fields) together with an
  optional UTC offset `tz` (microseconds), present exactly when the string
  carries timezone information. -/
inductive TsStr where
  | empty : TsStr
  | invalid (tag : Nat) : TsStr
  | valid (wall : Int) (tz : Option Int) : TsStr
deriving DecidableEq

/-- A Python `datetime` value: wall-clock microseconds plus an optional
UTC offset (`tz = none` models a naive datetime). -/
structure PyDatetime where
  wall : Int
  tz : Option Int
deriving DecidableEq

/-- The absolute instant denoted by a datetime (UTC microseconds).  Aware
datetime arithmetic (subtraction, comparison) in Python operates on
`wall - utcoffset`. -/
def PyDatetime.instant (d : PyDatetime) : Int := d.wall - d.tz.getD 0

/-- Modelled stdlib: `datetime.fromisoformat` on the abstract string.  It
fails (raises, modelled as `none`) on the empty string and on invalid input,
and otherwise returns the datetime written in the string, naive exactly when
the string carries no offset. -/
def fromisoformat : TsStr → Option PyDatetime
  | TsStr.empty => none
  | TsStr.invalid _ => none
  | TsStr.valid w tz => some ⟨w, tz⟩

/-- Modelled stdlib: `datetime.isoformat`, which serializes a datetime to a
string that `fromisoformat` parses back to the same datetime. -/
def PyDatetime.isoformat (d : PyDatetime) : TsStr := TsStr.valid d.wall d.tz

/-- Python truthiness of an optional string: `None` and the empty string are
falsy, every other string is truthy. -/
def truthy : Option TsStr → Bool
  | none => false
  | some TsStr.empty => false
  | some _ => true

/-- src/api/timezone_utils.py, `parse_timestamp`: `None`/empty input gives
`None`; a parse failure is caught and gives `None`; a successful parse with
no timezone information gets UTC attached (`tzinfo := utc`, offset 0). -/
def parse_timestamp : Option TsStr → Option PyDatetime
  | none => none
  | some ts =>
    if ts = TsStr.empty then none
    else
      match fromisoformat ts with
      | none => none
      | some d => if d.tz.isSome then some d else some ⟨d.wall, some 0⟩

/-- Input to `format_remaining`: Python `None`, a non-`timedelta` value, or a
`timedelta` of `micros` microseconds. -/
inductive TdInput where
  | none : TdInput
  | notTimedelta : TdInput
  | td (micros : Int) : TdInput

/-- Python `'s' if n != 1 else ''`. -/
def plural (n : Int) : String := if n = 1 then "" else "s"

/-- src/api/index.py, `format_remaining` (lines 444-466): `None` or a
non-`timedelta` gives `'N/A'`; a duration whose whole-second truncation is
`<= 0` gives `'Ready!'`; otherwise the duration is broken into days, hours
and minutes with zero-valued leading units omitted and pluralized labels. -/
def format_remaining : TdInput → String
  | TdInput.none => "N/A"
  | TdInput.notTimedelta => "N/A"
  | TdInput.td micros =>
    let total_seconds := intSeconds micros
    if total_seconds ≤ 0 then "Ready!"
    else
      let days := total_seconds / 86400
      let hours := (total_seconds % 86400) / 3600
      let minutes := (total_seconds % 3600) / 60
      if 0 < days then
        toString days ++ " day" ++ plural days ++ ", " ++
          toString hours ++ " hr" ++ plural hours ++ ", " ++
          toString minutes ++ " min" ++ plural minutes
      else if 0 < hours then
        toString hours ++ " hr" ++ plural hours ++ ", " ++
          toString minutes ++ " min" ++ plural minutes
      else
        toString minutes ++ " min" ++ plural minutes

/-- Civil date from a count of days since 1970-01-01 (proleptic Gregorian),
the standard era-based algorithm; returns (year, month, day). -/
def civilFromDays (z0 : Int) : Int × Int × Int :=
  let z := z0 + 719468
  let era := z / 146097
  let doe := z % 146097
  let yoe := (doe - doe / 1460 + doe / 36524 - doe / 146096) / 365
  let y := yoe + era * 400
  let doy := doe - (365 * yoe + yoe / 4 - yoe / 100)
  let mp := (5 * doy + 2) / 153
  let d := doy - (153 * mp + 2) / 5 + 1
  let m := mp + (if mp < 10 then 3 else -9)
  (if m ≤ 2 then y + 1 else y, m, d)

/-- Zero-pad a (nonnegative, < 100) number to two digits. -/
def pad2 (n : Int) : String := if n < 10 then "0" ++ toString n else toString n

/-- Zero-pad a (nonnegative) year to four digits. -/
def pad4 (n : Int) : String :=
  if n < 10 then "000" ++ toString n
  else if n < 100 then "00" ++ toString n
  else if n < 1000 then "0" ++ toString n
  else toString n

/-- Models `dt.strftime('%Y-%m-%d %H:%M UTC')` applied to the wall-clock
fields of a datetime (strftime prints the stored fields; it does not convert
to UTC). -/
def strftimeDisplay (wallMicros : Int) : String :=
  let totalSeconds := wallMicros / 1000000
  let days := totalSeconds / 86400
  let secOfDay := totalSeconds % 86400
  let c := civilFromDays days
  let hh := secOfDay / 3600
  let mm := (secOfDay % 3600) / 60
  pad4 c.1 ++ "-" ++ pad2 c.2.1 ++ "-" ++ pad2 c.2.2 ++ " " ++
    pad2 hh ++ ":" ++ pad2 mm ++ " UTC"

/-- A boss schedule from the hardcoded `BOSSES` catalog. -/
structure BossSchedule where
  name : String
  respawn_minutes : Int
  window_minutes : Int
deriving DecidableEq

/-- A stored timer document for a boss (the fields read by the classifier);
each timestamp field is an optional string. -/
structure TimerEntry where
  kill_time : Option TsStr
  spawn_time : Option TsStr
  window_end_time : Option TsStr
  user : Option String
deriving DecidableEq

/-- The per-boss view record built by `index` (`boss_info`).  The fields
`respawn_seconds` and `window_seconds` are `none` when the code stores the
empty string `''` in them. -/
structure BossInfo where
  name : String
  respawn : String
  respawn_seconds : Option Int
  window_end : String
  window_seconds : Option Int
  last_kill : String
  last_user : String
deriving DecidableEq

/-- The three lifecycle states a classified boss is put into. -/
inductive BState where
  | upcoming : BState
  | due : BState
  | lost : BState
deriving DecidableEq

/-- src/api/index.py lines 626-632: the spawn instant used by the
classifier.  A truthy stored `spawn_time` that parses is used as-is;
otherwise `kill_time + respawn_minutes` is used. -/
def resolveSpawn (boss : BossSchedule) (spawn_time : Option TsStr)
    (last_kill_dt : PyDatetime) : Int :=
  if truthy spawn_time then
    match parse_timestamp spawn_time with
    | some spawn_dt => spawn_dt.instant
    | none => last_kill_dt.instant + minutesToMicros boss.respawn_minutes
  else last_kill_dt.instant + minutesToMicros boss.respawn_minutes

/-- src/api/index.py lines 634-640: the window-end instant used by the
classifier.  A truthy stored `window_end_time` that parses is used as-is;
otherwise `spawn + window_minutes` is used. -/
def resolveWindowEnd (boss : BossSchedule) (window_end_time : Option TsStr)
    (spawnAbs : Int) : Int :=
  if truthy window_end_time then
    match parse_timestamp window_end_time with
    | some w => w.instant
    | none => spawnAbs + minutesToMicros boss.window_minutes
  else spawnAbs + minutesToMicros boss.window_minutes

/-- src/api/index.py lines 642-680: the body of the classification loop for
a boss whose truthy `kill_time` parsed to `last_kill_dt` — the remaining
computation, window display and three-way categorization. -/
def classifyParsed (boss : BossSchedule)
    (spawn_time window_end_time : Option TsStr) (last_kill_dt : PyDatetime)
    (last_user : String) (now : Int) : BossInfo × BState :=
  let spawnAbs := resolveSpawn boss spawn_time last_kill_dt
  let windowAbs := resolveWindowEnd boss window_end_time spawnAbs
  let respawn_remaining := spawnAbs - now
  let window_remaining := windowAbs - now
  let respawn_seconds := intSeconds respawn_remaining
  let window_seconds := intSeconds window_remaining
  let window_end_display :=
    if respawn_remaining ≠ 0 ∧ respawn_remaining ≤ 0 then
      format_remaining (TdInput.td window_remaining)
    else ""
  let window_seconds_display : Option Int :=
    if respawn_remaining ≠ 0 ∧ respawn_remaining ≤ 0 then
      some window_seconds
    else none
  let info : BossInfo :=
    { name := boss.name
      respawn := format_remaining (TdInput.td respawn_remaining)
      respawn_seconds := some respawn_seconds
      window_end := window_end_display
      window_seconds := window_seconds_display
      last_kill := strftimeDisplay last_kill_dt.wall
      last_user := last_user }
  if respawn_seconds ≤ 0 then
    if window_seconds ≤ 0 then (info, BState.lost)
    else (info, BState.due)
  else (info, BState.upcoming)

/-- src/api/index.py lines 607-683: the `boss_info` built for a boss with no
truthy `kill_time` (no stored entry, or a falsy stored field): 'N/A'
displays, empty numeric fields, state Upcoming. -/
def noRecordInfo (boss : BossSchedule) (last_user : String) : BossInfo :=
  { name := boss.name
    respawn := "N/A"
    respawn_seconds := none
    window_end := "N/A"
    window_seconds := none
    last_kill := "N/A"
    last_user := last_user }

/-- src/api/index.py lines 607-683, the per-boss body of the classification
loop in `index`.  Returns `none` when the loop executes `continue` (a truthy
`kill_time` that fails to parse drops the boss from the output), and
otherwise the constructed `boss_info` together with the list it is appended
to. -/
def classifyBoss (boss : BossSchedule) (timer_entry : Option TimerEntry)
    (now : Int) : Option (BossInfo × BState) :=
  let last_kill : Option TsStr := timer_entry.bind (·.kill_time)
  let last_user : String :=
    match timer_entry with
    | some t => t.user.getD "N/A"
    | none => "N/A"
  if truthy last_kill then
    match parse_timestamp last_kill with
    | none => none
    | some last_kill_dt =>
      some (classifyParsed boss (timer_entry.bind (·.spawn_time))
        (timer_entry.bind (·.window_end_time)) last_kill_dt last_user now)
  else some (noRecordInfo boss last_user, BState.upcoming)

/-- The sort key used for the upcoming list (line 686): the value of
`respawn_seconds` when it is an integer `> 0`, else positive infinity,
modelled as `none`. -/
def upKey (b : BossInfo) : Option Int :=
  match b.respawn_seconds with
  | some n => if 0 < n then some n else none
  | none => none

/-- The sort key used for the due list (line 689): the value of
`window_seconds` when it is an integer `> 0`, else positive infinity,
modelled as `none`. -/
def dueKey (b : BossInfo) : Option Int :=
  match b.window_seconds with
  | some n => if 0 < n then some n else none
  | none => none

/-- Order on optional integer keys with `none` as positive infinity. -/
def okeyLE : Option Int → Option Int → Prop
  | _, none => True
  | none, some _ => False
  | some a, some b => a ≤ b

instance : DecidableRel okeyLE := fun a b => by
  unfold okeyLE
  cases a <;> cases b <;> simp <;> infer_instance

/-- Lexicographic comparison of character lists by code point, the order
Python uses to compare strings. -/
def lexLE : List Char → List Char → Bool
  | [], _ => true
  | _ :: _, [] => false
  | a :: as, b :: bs => if a < b then true else if b < a then false else lexLE as bs

/-- Python string `<=`: code-point lexicographic order. -/
def strLE (a b : String) : Bool := lexLE a.data b.data

/-- Comparator for the upcoming sort (ascending key). -/
def upLE (a b : BossInfo) : Prop := okeyLE (upKey a) (upKey b)

instance : DecidableRel upLE := fun a b => by unfold upLE; infer_instance

/-- Comparator for the due sort (ascending key). -/
def dueLE (a b : BossInfo) : Prop := okeyLE (dueKey a) (dueKey b)

instance : DecidableRel dueLE := fun a b => by unfold dueLE; infer_instance

/-- Comparator for the lost sort: `sort(key=last_kill, reverse=True)`,
i.e. descending in the formatted last-kill string. -/
def lostLE (a b : BossInfo) : Prop := strLE b.last_kill a.last_kill = true

instance : DecidableRel lostLE := fun a b => by unfold lostLE; infer_instance

/-- The classified output of a pass over the catalog. -/
structure Classified where
  due : List BossInfo
  upcoming : List BossInfo
  lost : List BossInfo
deriving DecidableEq

/-- One step of the classification loop: append the boss view to the list
chosen by `classifyBoss`, or drop the boss when it returns `none`. -/
def classifyStep (timers : String → Option TimerEntry) (now : Int)
    (acc : Classified) (boss : BossSchedule) : Classified :=
  match classifyBoss boss (timers boss.name) now with
  | none => acc
  | some (info, BState.due) => { acc with due := acc.due ++ [info] }
  | some (info, BState.upcoming) => { acc with upcoming := acc.upcoming ++ [info] }
  | some (info, BState.lost) => { acc with lost := acc.lost ++ [info] }

/-- src/api/index.py, `index` (lines 594-700), the classification pass:
walk the catalog accumulating the three lists, then sort each one.  Python's
`list.sort` is a stable sort, whose output is the unique stable ordering for
the comparator; it is modelled by the (stable) insertion sort. -/
def indexClassify (bosses : List BossSchedule)
    (timers : String → Option TimerEntry) (now : Int) : Classified :=
  let c := bosses.foldl (classifyStep timers now) ⟨[], [], []⟩
  { due := List.insertionSort dueLE c.due
    upcoming := List.insertionSort upLE c.upcoming
    lost := List.insertionSort lostLE c.lost }

/-- The hardcoded `BOSSES` catalog (src/api/index.py lines 150-216). -/
def BOSSES : List BossSchedule :=
  [⟨"170", 80, 5⟩, ⟨"180", 90, 5⟩, ⟨"Mordy", 720, 240⟩, ⟨"210", 130, 5⟩,
   ⟨"215", 135, 5⟩, ⟨"Proteus", 720, 240⟩, ⟨"Dino", 1320, 240⟩,
   ⟨"Bloodthorn", 1320, 240⟩, ⟨"Gelebron", 1320, 240⟩, ⟨"Crom", 5760, 1440⟩,
   ⟨"aggy", 720, 240⟩, ⟨"necro", 840, 240⟩, ⟨"hrung", 840, 240⟩]

/-- src/api/index.py, `reset` (lines 842-858): the timer document written on
a reset.  `datetime.utcnow()` is naive, so all three fields serialize with no
offset; `now` is the UTC wall clock at the reset. -/
def reset (boss : BossSchedule) (now : Int) (username : String) : TimerEntry :=
  let spawn := now + minutesToMicros boss.respawn_minutes
  let window_end := spawn + minutesToMicros boss.window_minutes
  { kill_time := some (TsStr.valid now none)
    spawn_time := some (TsStr.valid spawn none)
    window_end_time := some (TsStr.valid window_end none)
    user := some username }

/-- Shift one stored field of the edit loop (lines 889-893): a falsy field
is left alone; a truthy field is parsed with `datetime.fromisoformat`
(uncaught raise modelled as `none`) and rewritten with its wall clock moved
back `minutes` minutes, the offset kept. -/
def shiftField (minutes : Int) : Option TsStr → Option (Option TsStr)
  | none => some none
  | some TsStr.empty => some (some TsStr.empty)
  | some (TsStr.invalid _) => none
  | some (TsStr.valid w tz) => some (some (TsStr.valid (w - minutesToMicros minutes) tz))

/-- Net effect of the edit operation on the stored timer document. -/
inductive EditResult where
  | rejected : EditResult
  | errored : EditResult
  | saved (entry : TimerEntry) : EditResult
deriving DecidableEq

/-- src/api/index.py, `edit` (lines 879-896): non-positive minutes are
rejected before anything is touched; otherwise the three timestamp fields
are each shifted back by `minutes` and the document saved.  When a truthy
field fails to parse the uncaught exception aborts the request before
`save_timer`, leaving the stored document unchanged (`errored`). -/
def edit (timer_entry : TimerEntry) (minutes : Int) : EditResult :=
  if minutes ≤ 0 then EditResult.rejected
  else
    match shiftField minutes timer_entry.kill_time,
        shiftField minutes timer_entry.spawn_time,
        shiftField minutes timer_entry.window_end_time with
    | some k, some s, some w =>
      EditResult.saved
        { timer_entry with kill_time := k, spawn_time := s, window_end_time := w }
    | _, _, _ => EditResult.errored

/-! ### Shared lemmas -/

/-- The truncation `int(total_seconds())` is nonpositive exactly when the
duration is under one whole second. -/
theorem intSeconds_nonpos_iff (x : Int) : intSeconds x ≤ 0 ↔ x < 1000000 := by
  unfold intSeconds; split <;> omega

/-- A whole number of minutes truncates exactly. -/
theorem intSeconds_minutes (m : Int) (h : 0 ≤ m) :
    intSeconds (minutesToMicros m) = 60 * m := by
  unfold intSeconds minutesToMicros; split <;> omega

/-- A successful `parse_timestamp` implies the input was truthy. -/
theorem truthy_of_parse_some {s : Option TsStr} {d : PyDatetime}
    (h : parse_timestamp s = some d) : truthy s = true := by
  match s with
  | none => simp [parse_timestamp] at h
  | some TsStr.empty => simp [parse_timestamp] at h
  | some (TsStr.invalid t) => rfl
  | some (TsStr.valid w tz) => rfl

/-- A days/hours/minutes breakdown string (which always ends in `min` or
`mins`) is never the string `Ready!`. -/
theorem min_plural_ne_ready (s : String) (n : Int) :
    s ++ " min" ++ plural n ≠ "Ready!" := by
  intro h
  have h2 : ((s ++ " min") ++ plural n).data.getLast? = some '!' := by
    rw [h]; rfl
  rw [String.data_append, String.data_append, List.getLast?_append,
    List.getLast?_append] at h2
  have e2 : (" min" : String).data.getLast? = some 'n' := rfl
  rw [e2] at h2
  unfold plural at h2
  by_cases hn : n = 1
  · rw [if_pos hn] at h2
    have e1 : ("" : String).data.getLast? = none := rfl
    rw [e1] at h2
    simp [Option.or] at h2
  · rw [if_neg hn] at h2
    have e1 : ("s" : String).data.getLast? = some 's' := rfl
    rw [e1] at h2
    simp [Option.or] at h2

theorem okeyLE_total (a b : Option Int) : okeyLE a b ∨ okeyLE b a := by
  cases a <;> cases b <;> simp [okeyLE] <;> omega

theorem okeyLE_trans {a b c : Option Int} (h₁ : okeyLE a b) (h₂ : okeyLE b c) :
    okeyLE a c := by
  cases a <;> cases b <;> cases c <;> simp_all [okeyLE] <;> omega

theorem lexLE_total : ∀ as bs : List Char, lexLE as bs = true ∨ lexLE bs as = true
  | [], _ => Or.inl rfl
  | _ :: _, [] => Or.inr rfl
  | a :: as, b :: bs => by
    rcases lt_trichotomy a b with h | h | h
    · left; simp [lexLE, h]
    · subst h
      rcases lexLE_total as bs with ih | ih
      · left; simp [lexLE, lt_irrefl, ih]
      · right; simp [lexLE, lt_irrefl, ih]
    · right; simp [lexLE, h]

theorem lexLE_trans : ∀ as bs cs : List Char,
    lexLE as bs = true → lexLE bs cs = true → lexLE as cs = true
  | [], _, cs => fun _ _ => rfl
  | _ :: _, [], _ => by intro h; simp [lexLE] at h
  | _ :: _, _ :: _, [] => by intro _ h; simp [lexLE] at h
  | a :: as, b :: bs, c :: cs => by
    intro h₁ h₂
    simp only [lexLE] at h₁ h₂ ⊢
    rcases lt_trichotomy a b with hab | hab | hab
    · rcases lt_trichotomy b c with hbc | hbc | hbc
      · simp [lt_trans hab hbc]
      · subst hbc; simp [hab]
      · simp [lt_asymm hbc, hbc] at h₂
    · subst hab
      rcases lt_trichotomy a c with hac | hac | hac
      · simp [hac]
      · subst hac
        simp only [lt_irrefl, if_false] at h₁ h₂ ⊢
        exact lexLE_trans as bs cs h₁ h₂
      · simp only [lt_irrefl, if_false] at h₁
        simp [hac, lt_asymm hac] at h₂
    · simp [hab, lt_asymm hab] at h₁

theorem strLE_total (a b : String) : strLE a b = true ∨ strLE b a = true :=
  lexLE_total a.data b.data

theorem strLE_trans {a b c : String} (h₁ : strLE a b = true)
    (h₂ : strLE b c = true) : strLE a c = true :=
  lexLE_trans a.data b.data c.data h₁ h₂

instance : IsTotal BossInfo upLE := ⟨fun a b => okeyLE_total (upKey a) (upKey b)⟩

instance : IsTrans BossInfo upLE := ⟨fun _ _ _ => okeyLE_trans⟩

instance : IsTotal BossInfo dueLE := ⟨fun a b => okeyLE_total (dueKey a) (dueKey b)⟩

instance : IsTrans BossInfo dueLE := ⟨fun _ _ _ => okeyLE_trans⟩

instance : IsTotal BossInfo lostLE :=
  ⟨fun a b => strLE_total b.last_kill a.last_kill⟩

instance : IsTrans BossInfo lostLE :=
  ⟨fun _ _ _ h₁ h₂ => strLE_trans h₂ h₁⟩

/-- When the stored kill time is truthy and parses, the classification loop
body runs `classifyParsed` on the remaining fields. -/
theorem classifyBoss_some (boss : BossSchedule) (e : TimerEntry) (now : Int)
    (kd : PyDatetime) (hk : truthy e.kill_time = true)
    (hp : parse_timestamp e.kill_time = some kd) :
    classifyBoss boss (some e) now =
      some (classifyParsed boss e.spawn_time e.window_end_time kd
        (e.user.getD "N/A") now) := by
  unfold classifyBoss
  simp [hk, hp]

/-- The state computed by the loop body: Upcoming when at least one whole
second remains before the resolved spawn instant, otherwise Due when at
least one whole second remains before the resolved window end, otherwise
Lost. -/
theorem classifyParsed_state (boss : BossSchedule)
    (st wt : Option TsStr) (kd : PyDatetime) (u : String) (now : Int) :
    (classifyParsed boss st wt kd u now).2 =
      (if 1000000 ≤ resolveSpawn boss st kd - now then BState.upcoming
       else if 1000000 ≤
           resolveWindowEnd boss wt (resolveSpawn boss st kd) - now then
         BState.due
       else BState.lost) := by
  unfold classifyParsed
  have hS : (1000000 ≤ resolveSpawn boss st kd - now) ↔
      ¬ intSeconds (resolveSpawn boss st kd - now) ≤ 0 := by
    rw [intSeconds_nonpos_iff]; omega
  have hW : (1000000 ≤
      resolveWindowEnd boss wt (resolveSpawn boss st kd) - now) ↔
      ¬ intSeconds
        (resolveWindowEnd boss wt (resolveSpawn boss st kd) - now) ≤ 0 := by
    rw [intSeconds_nonpos_iff]; omega
  by_cases h1 : intSeconds (resolveSpawn boss st kd - now) ≤ 0 <;>
    by_cases h2 : intSeconds
      (resolveWindowEnd boss wt (resolveSpawn boss st kd) - now) ≤ 0 <;>
    simp [h1, h2, hS, hW]

/-- The view record computed by the loop body, in every state. -/
theorem classifyParsed_info (boss : BossSchedule)
    (st wt : Option TsStr) (kd : PyDatetime) (u : String) (now : Int) :
    (classifyParsed boss st wt kd u now).1 =
      { name := boss.name
        respawn := format_remaining (TdInput.td (resolveSpawn boss st kd - now))
        respawn_seconds := some (intSeconds (resolveSpawn boss st kd - now))
        window_end :=
          if resolveSpawn boss st kd - now ≠ 0 ∧
              resolveSpawn boss st kd - now ≤ 0 then
            format_remaining (TdInput.td
              (resolveWindowEnd boss wt (resolveSpawn boss st kd) - now))
          else ""
        window_seconds :=
          if resolveSpawn boss st kd - now ≠ 0 ∧
              resolveSpawn boss st kd - now ≤ 0 then
            some (intSeconds
              (resolveWindowEnd boss wt (resolveSpawn boss st kd) - now))
          else none
        last_kill := strftimeDisplay kd.wall
        last_user := u } := by
  by_cases hd : resolveSpawn boss st kd - now ≠ 0 ∧
      resolveSpawn boss st kd - now ≤ 0 <;>
    by_cases h1 : intSeconds (resolveSpawn boss st kd - now) ≤ 0 <;>
    by_cases h2 : intSeconds
      (resolveWindowEnd boss wt (resolveSpawn boss st kd) - now) ≤ 0 <;>
    simp [classifyParsed, hd, h1, h2]

/-! ### Claim theorems -/

/-- C5 (amended): in the output of the classification pass, the Upcoming
list is non-decreasing in its respawn-seconds sort key with no-numeric
entries (key `none`, positive infinity) after all numeric ones; the Due
list is non-decreasing in its window-seconds key with the same infinity
fallback; and the Lost list is non-increasing (descending) in the
fixed-width formatted last-kill display string — equivalently in the
last-kill instant truncated to the displayed minute. -/
theorem c5_ordering (bosses : List BossSchedule)
    (timers : String → Option TimerEntry) (now : Int) :
    (indexClassify bosses timers now).upcoming.Pairwise
      (fun a b => okeyLE (upKey a) (upKey b)) ∧
    (indexClassify bosses timers now).due.Pairwise
      (fun a b => okeyLE (dueKey a) (dueKey b)) ∧
    (indexClassify bosses timers now).lost.Pairwise
      (fun a b => strLE b.last_kill a.last_kill = true) := by
  refine ⟨?_, ?_, ?_⟩
  · exact List.sorted_insertionSort upLE _
  · exact List.sorted_insertionSort dueLE _
  · exact List.sorted_insertionSort lostLE _

/-- C5 counterexample: the last-kill display truncates seconds, so two
bosses killed 15 seconds apart in the same minute have EQUAL display
strings; the stable descending sort then keeps catalog order, here boss "A"
(killed at instant 30s) before boss "B" (killed at instant 45s), so the
Lost list is strictly increasing — not non-increasing — in last-kill time. -/
theorem c5_counterexample :
    parse_timestamp (some (TsStr.valid 30000000 (some 0))) =
      some ⟨30000000, some 0⟩ ∧
    parse_timestamp (some (TsStr.valid 45000000 (some 0))) =
      some ⟨45000000, some 0⟩ ∧
    (30000000 : Int) < 45000000 ∧
    ((indexClassify [⟨"A", 80, 5⟩, ⟨"B", 80, 5⟩]
        (fun n =>
          if n = "A" then
            some ⟨some (TsStr.valid 30000000 (some 0)), none, none, none⟩
          else
            some ⟨some (TsStr.valid 45000000 (some 0)), none, none, none⟩)
        172800000000).lost.map (fun b => b.name)) = ["A", "B"] := by
  refine ⟨rfl, rfl, by decide, by decide⟩

/-- C6 counterexample: a strictly positive duration of half a second is
formatted `'Ready!'`, not as a days/hours/minutes breakdown, because
`int(total_seconds())` truncates it to `0`.  This refutes the claim that
every positive duration is formatted as days/hours/minutes (with `'Ready!'`
reserved for durations `<= 0`). -/
theorem c6_counterexample :
    (0 : Int) < 500000 ∧ format_remaining (TdInput.td 500000) = "Ready!" :=
  ⟨by decide, rfl⟩

/-- C6 (amended): the formatter maps `None` and non-`timedelta` input to
`'N/A'` without raising; any duration under one whole second — in particular
any duration `<= 0` — to `'Ready!'`, and never to `'Ready!'` otherwise; and
durations of at least one second to the days/hours/minutes breakdown with
zero-valued leading units omitted and labels pluralized exactly when the
magnitude is not 1, as the sample values show. -/
theorem c6_amended :
    format_remaining TdInput.none = "N/A" ∧
    format_remaining TdInput.notTimedelta = "N/A" ∧
    (∀ micros : Int, micros < 1000000 →
      format_remaining (TdInput.td micros) = "Ready!") ∧
    format_remaining (TdInput.td (90 * 60 * 1000000)) = "1 hr, 30 mins" ∧
    format_remaining (TdInput.td (60 * 1000000)) = "1 min" ∧
    format_remaining (TdInput.td (25 * 3600 * 1000000)) = "1 day, 1 hr, 0 mins" ∧
    format_remaining (TdInput.td (2 * 60 * 1000000)) = "2 mins" ∧
    format_remaining (TdInput.td (48 * 3600 * 1000000)) = "2 days, 0 hrs, 0 mins" ∧
    format_remaining (TdInput.td (61 * 60 * 1000000)) = "1 hr, 1 min" ∧
    format_remaining (TdInput.td 0) = "Ready!" ∧
    (∀ micros : Int, 1000000 ≤ micros →
      format_remaining (TdInput.td micros) ≠ "Ready!") := by
  refine ⟨rfl, rfl, ?_, by decide, by decide, by decide, by decide, by decide,
    by decide, rfl, ?_⟩
  · intro micros h
    have h0 : intSeconds micros ≤ 0 := (intSeconds_nonpos_iff micros).mpr h
    unfold format_remaining
    simp [h0]
  · intro micros h
    have h0 : ¬ intSeconds micros ≤ 0 := by
      rw [intSeconds_nonpos_iff]; omega
    unfold format_remaining
    simp only [h0, if_false]
    split
    · exact min_plural_ne_ready _ _
    · split
      · exact min_plural_ne_ready _ _
      · exact min_plural_ne_ready _ _

/-- C6 witness: the general `'Ready!'` clause of the amended claim applied
at the concrete duration `-3` seconds. -/
theorem c6_witness :
    format_remaining (TdInput.td (-3000000)) = "Ready!" :=
  c6_amended.2.2.1 (-3000000) (by decide)

/-- C7: `parse_timestamp` returns `None` for an absent input, for the empty
string and for any unparseable string (never raising: it is a total
function); a successful parse of a timestamp carrying no timezone gets UTC
attached; and normalization is idempotent: re-parsing the serialized form of
any successfully parsed timestamp returns the same instant (indeed the same
datetime). -/
theorem c7_parse_contract :
    parse_timestamp none = none ∧
    parse_timestamp (some TsStr.empty) = none ∧
    (∀ t, parse_timestamp (some (TsStr.invalid t)) = none) ∧
    (∀ w : Int, parse_timestamp (some (TsStr.valid w none)) =
      some ⟨w, some 0⟩) ∧
    (∀ (s : Option TsStr) (d : PyDatetime), parse_timestamp s = some d →
      parse_timestamp (some d.isoformat) = some d) := by
  refine ⟨rfl, rfl, fun t => rfl, fun w => rfl, ?_⟩
  intro s d h
  match s with
  | none => simp [parse_timestamp] at h
  | some TsStr.empty => simp [parse_timestamp] at h
  | some (TsStr.invalid t) => simp [parse_timestamp, fromisoformat] at h
  | some (TsStr.valid w tz) =>
    cases tz with
    | none =>
      simp only [parse_timestamp, fromisoformat, reduceCtorEq, if_false,
        Option.isSome_none, Bool.false_eq_true, Option.some.injEq] at h
      subst h
      rfl
    | some o =>
      simp only [parse_timestamp, fromisoformat, reduceCtorEq, if_false,
        Option.isSome_some, if_true, Option.some.injEq] at h
      subst h
      rfl

/-- C7 witness: the idempotence clause applied to the concrete naive
timestamp with wall clock 5 microseconds. -/
theorem c7_witness :
    parse_timestamp (some (PyDatetime.isoformat ⟨5, some 0⟩)) =
      some ⟨5, some 0⟩ :=
  c7_parse_contract.2.2.2.2 (some (TsStr.valid 5 none)) ⟨5, some 0⟩ rfl

/-- C9: the edit operation rejects any non-positive number of minutes
without touching the stored entry, and for a positive number of minutes `m`
it rewrites each of the three stored timestamps with its wall clock moved
back by exactly `m` minutes (offset preserved, so the denoted instant also
moves back by exactly `m` minutes), and `m` minutes is a strictly positive
shift — never forward. -/
theorem c9_edit :
    (∀ (e : TimerEntry) (m : Int), m ≤ 0 → edit e m = EditResult.rejected) ∧
    (∀ (e : TimerEntry) (m k s w : Int) (kt st wt : Option Int),
      0 < m →
      e.kill_time = some (TsStr.valid k kt) →
      e.spawn_time = some (TsStr.valid s st) →
      e.window_end_time = some (TsStr.valid w wt) →
      edit e m = EditResult.saved
        { e with
          kill_time := some (TsStr.valid (k - minutesToMicros m) kt)
          spawn_time := some (TsStr.valid (s - minutesToMicros m) st)
          window_end_time := some (TsStr.valid (w - minutesToMicros m) wt) } ∧
      (PyDatetime.instant ⟨k - minutesToMicros m, kt⟩ =
        PyDatetime.instant ⟨k, kt⟩ - minutesToMicros m) ∧
      0 < minutesToMicros m) := by
  constructor
  · intro e m h
    unfold edit
    simp [h]
  · intro e m k s w kt st wt hm hk hs hw
    refine ⟨?_, ?_, ?_⟩
    · unfold edit
      rw [if_neg (by omega), hk, hs, hw]
      rfl
    · simp [PyDatetime.instant]
      omega
    · unfold minutesToMicros
      omega

/-- C9 witness: the rejection clause at `m = 0` and the shift clause at
`m = 5` minutes on a concrete entry. -/
theorem c9_witness :
    edit ⟨some (TsStr.valid 900000000 (some 0)),
      some (TsStr.valid 1000000000 none),
      some (TsStr.valid 1100000000 none), some "u"⟩ 0 =
      EditResult.rejected ∧
    edit ⟨some (TsStr.valid 900000000 (some 0)),
      some (TsStr.valid 1000000000 none),
      some (TsStr.valid 1100000000 none), some "u"⟩ 5 =
      EditResult.saved
        ⟨some (TsStr.valid 600000000 (some 0)),
          some (TsStr.valid 700000000 none),
          some (TsStr.valid 800000000 none), some "u"⟩ := by
  constructor
  · exact c9_edit.1 _ 0 (by decide)
  · have h := (c9_edit.2 ⟨some (TsStr.valid 900000000 (some 0)),
      some (TsStr.valid 1000000000 none),
      some (TsStr.valid 1100000000 none), some "u"⟩ 5
      900000000 1000000000 1100000000 (some 0) none none
      (by decide) rfl rfl rfl).1
    simpa using h

/-- C10: every non-`None` result of `parse_timestamp` is timezone-aware
(`tzinfo` is set; UTC attached when the input carried none), so instants of
parsed timestamps are well-defined and subtracting the timezone-aware
current instant never mixes naive and aware datetimes. -/
theorem c10_aware (s : Option TsStr) (d : PyDatetime)
    (h : parse_timestamp s = some d) : d.tz.isSome = true := by
  match s with
  | none => simp [parse_timestamp] at h
  | some TsStr.empty => simp [parse_timestamp] at h
  | some (TsStr.invalid t) => simp [parse_timestamp, fromisoformat] at h
  | some (TsStr.valid w tz) =>
    cases tz with
    | none =>
      simp only [parse_timestamp, fromisoformat, reduceCtorEq, if_false,
        Option.isSome_none, Bool.false_eq_true, Option.some.injEq] at h
      subst h
      rfl
    | some o =>
      simp only [parse_timestamp, fromisoformat, reduceCtorEq, if_false,
        Option.isSome_some, if_true, Option.some.injEq] at h
      subst h
      rfl

/-- C10 witness: the awareness invariant at the concrete naive input with
wall clock 7. -/
theorem c10_witness :
    (PyDatetime.tz ⟨7, some 0⟩).isSome = true :=
  c10_aware (some (TsStr.valid 7 none)) ⟨7, some 0⟩ rfl

/-- C1 counterexample: boss with respawn 80m killed at instant 0, so the
resolved spawn instant is at 80 minutes; at `now` half a second BEFORE the
spawn instant (`now < spawn_time`) the state is Due, not Upcoming, because
`int(total_seconds())` truncates the half second to 0.  This refutes the
claimed exact three-way split on instants. -/
theorem c1_counterexample :
    resolveSpawn ⟨"170", 80, 5⟩ none ⟨0, some 0⟩ = 4800000000 ∧
    (4799500000 : Int) < 4800000000 ∧
    (classifyBoss ⟨"170", 80, 5⟩
        (some ⟨some (TsStr.valid 0 (some 0)), none, none, some "u"⟩)
        4799500000).map Prod.snd = some BState.due := by
  refine ⟨by decide, by decide, by decide⟩

/-- C1 (amended): for a stored kill event whose kill time parses, with
resolved spawn instant `S` and resolved window end `W`, the classification
is the three-way split with both boundaries evaluated on whole truncated
seconds: Upcoming iff `S - now >= 1` second, else Due iff `W - now >= 1`
second, else Lost; at whole-second offsets this coincides with the claimed
split on instants.  The sortable respawn remaining of such a boss is
`S - now` truncated to the second. -/
theorem c1_amended (boss : BossSchedule) (e : TimerEntry) (now : Int)
    (kd : PyDatetime) (hk : truthy e.kill_time = true)
    (hp : parse_timestamp e.kill_time = some kd) :
    ∃ info : BossInfo,
      classifyBoss boss (some e) now =
        some (info,
          if 1000000 ≤ resolveSpawn boss e.spawn_time kd - now then
            BState.upcoming
          else if 1000000 ≤ resolveWindowEnd boss e.window_end_time
              (resolveSpawn boss e.spawn_time kd) - now then BState.due
          else BState.lost) ∧
      info.respawn_seconds =
        some (intSeconds (resolveSpawn boss e.spawn_time kd - now)) := by
  refine ⟨(classifyParsed boss e.spawn_time e.window_end_time kd
    (e.user.getD "N/A") now).1, ?_, ?_⟩
  · rw [classifyBoss_some boss e now kd hk hp, ← classifyParsed_state]
  · rw [classifyParsed_info]

/-- C1 witness: the amended split at a concrete input one hour before the
spawn instant — the state is Upcoming and the remaining is 4800 seconds. -/
theorem c1_witness :
    ∃ info : BossInfo,
      classifyBoss ⟨"170", 80, 5⟩
          (some ⟨some (TsStr.valid 0 (some 0)), none, none, some "u"⟩) 0 =
        some (info, BState.upcoming) ∧
      info.respawn_seconds = some 4800 := by
  obtain ⟨info, h1, h2⟩ := c1_amended ⟨"170", 80, 5⟩
    ⟨some (TsStr.valid 0 (some 0)), none, none, some "u"⟩ 0 ⟨0, some 0⟩
    rfl rfl
  refine ⟨info, ?_, ?_⟩
  · rw [h1, if_pos (by decide : (1000000 : Int) ≤
      resolveSpawn ⟨"170", 80, 5⟩ none ⟨0, some 0⟩ - 0)]
  · rw [h2]
    decide

/-- C2 counterexample: a stored entry whose `kill_time` is present but
unparseable makes the classification loop `continue`: the boss is dropped
from the output entirely — all three lists are empty — rather than shown as
Upcoming with 'N/A'. -/
theorem c2_counterexample :
    classifyBoss ⟨"170", 80, 5⟩
      (some ⟨some (TsStr.invalid 0), none, none, none⟩) 0 = none ∧
    indexClassify [⟨"170", 80, 5⟩]
      (fun _ => some ⟨some (TsStr.invalid 0), none, none, none⟩) 0 =
      ⟨[], [], []⟩ :=
  ⟨rfl, rfl⟩

/-- C2 (amended): a boss with no stored entry, or whose stored `kill_time`
is falsy (absent or the empty string), is classified Upcoming with 'N/A'
displays, no numeric remaining, and an infinite (`none`) sort key; but a
boss whose stored `kill_time` is truthy yet fails to parse is skipped and
appears in none of the output lists. -/
theorem c2_amended (boss : BossSchedule) (now : Int) :
    (∀ e : Option TimerEntry, truthy (e.bind (·.kill_time)) = false →
      ∃ info, classifyBoss boss e now = some (info, BState.upcoming) ∧
        info.respawn = "N/A" ∧ info.respawn_seconds = none ∧
        info.window_end = "N/A" ∧ info.window_seconds = none ∧
        info.last_kill = "N/A" ∧ upKey info = none) ∧
    (∀ e : TimerEntry, truthy e.kill_time = true →
      parse_timestamp e.kill_time = none →
      classifyBoss boss (some e) now = none) := by
  constructor
  · intro e h
    cases e with
    | none =>
      exact ⟨noRecordInfo boss "N/A", rfl, rfl, rfl, rfl, rfl, rfl, rfl⟩
    | some t =>
      refine ⟨noRecordInfo boss (t.user.getD "N/A"), ?_, rfl, rfl, rfl, rfl,
        rfl, rfl⟩
      unfold classifyBoss
      simp at h
      simp [h]
  · intro e hk hp
    unfold classifyBoss
    simp [hk, hp]

/-- C2 witness: both clauses of the amended claim at concrete inputs — the
boss with no entry is Upcoming with 'N/A' fields, and the boss with an
unparseable kill time is dropped. -/
theorem c2_witness :
    (∃ info, classifyBoss ⟨"170", 80, 5⟩ none 0 =
        some (info, BState.upcoming) ∧
      info.respawn = "N/A" ∧ info.respawn_seconds = none ∧
      info.window_end = "N/A" ∧ info.window_seconds = none ∧
      info.last_kill = "N/A" ∧ upKey info = none) ∧
    classifyBoss ⟨"170", 80, 5⟩
      (some ⟨some (TsStr.invalid 1), none, none, none⟩) 0 = none :=
  ⟨(c2_amended ⟨"170", 80, 5⟩ 0).1 none rfl,
    (c2_amended ⟨"170", 80, 5⟩ 0).2
      ⟨some (TsStr.invalid 1), none, none, none⟩ rfl rfl⟩

/-- C3: with a valid kill time, a truthy stored `spawn_time` that parses is
used as-is; otherwise (absent, empty, or unparseable) the spawn instant is
derived as `kill_time + respawn_duration`; a truthy stored
`window_end_time` that parses is used as-is, otherwise derived as the
resolved spawn instant plus the window duration; and a boss with a valid
kill time is always classified (never dropped), in particular when the
stored spawn time is corrupt. -/
theorem c3_derivation (boss : BossSchedule) (e : TimerEntry) (now : Int)
    (kd : PyDatetime) (hp : parse_timestamp e.kill_time = some kd) :
    (∀ sd, parse_timestamp e.spawn_time = some sd →
      resolveSpawn boss e.spawn_time kd = sd.instant) ∧
    (parse_timestamp e.spawn_time = none →
      resolveSpawn boss e.spawn_time kd =
        kd.instant + minutesToMicros boss.respawn_minutes) ∧
    (∀ (S : Int) (wd : PyDatetime),
      parse_timestamp e.window_end_time = some wd →
      resolveWindowEnd boss e.window_end_time S = wd.instant) ∧
    (∀ S : Int, parse_timestamp e.window_end_time = none →
      resolveWindowEnd boss e.window_end_time S =
        S + minutesToMicros boss.window_minutes) ∧
    (∃ r, classifyBoss boss (some e) now = some r) := by
  refine ⟨?_, ?_, ?_, ?_, ?_⟩
  · intro sd hs
    unfold resolveSpawn
    rw [if_pos (truthy_of_parse_some hs), hs]
  · intro hs
    unfold resolveSpawn
    by_cases ht : truthy e.spawn_time = true
    · rw [if_pos ht, hs]
    · rw [if_neg ht]
  · intro S wd hw
    unfold resolveWindowEnd
    rw [if_pos (truthy_of_parse_some hw), hw]
  · intro S hw
    unfold resolveWindowEnd
    by_cases ht : truthy e.window_end_time = true
    · rw [if_pos ht, hw]
    · rw [if_neg ht]
  · exact ⟨_, classifyBoss_some boss e now kd (truthy_of_parse_some hp) hp⟩

/-- C3 witness: a concrete entry with a valid kill time at instant 0 and
corrupt stored spawn and window-end strings — both are re-derived from the
schedule and the boss is still classified. -/
theorem c3_witness :
    resolveSpawn ⟨"170", 80, 5⟩ (some (TsStr.invalid 1)) ⟨0, some 0⟩ =
      0 + minutesToMicros 80 ∧
    resolveWindowEnd ⟨"170", 80, 5⟩ (some (TsStr.invalid 2))
      (minutesToMicros 80) = minutesToMicros 80 + minutesToMicros 5 ∧
    (∃ r, classifyBoss ⟨"170", 80, 5⟩
      (some ⟨some (TsStr.valid 0 (some 0)), some (TsStr.invalid 1),
        some (TsStr.invalid 2), some "u"⟩) 0 = some r) := by
  have h := c3_derivation ⟨"170", 80, 5⟩
    ⟨some (TsStr.valid 0 (some 0)), some (TsStr.invalid 1),
      some (TsStr.invalid 2), some "u"⟩ 0 ⟨0, some 0⟩ rfl
  exact ⟨h.2.1 rfl, h.2.2.2.1 (minutesToMicros 80) rfl, h.2.2.2.2⟩

/-- C4 counterexample: for the schedule respawn=80m window=5m with kill at
instant 0, at `now` exactly the spawn instant (respawn remaining equal to
zero) the state is Due but the window display field is the EMPTY string,
not the formatted window remaining, because a zero `timedelta` is falsy in
the display condition.  This refutes the claim that every Due boss has the
window countdown displayed. -/
theorem c4_counterexample :
    resolveSpawn ⟨"170", 80, 5⟩ none ⟨0, some 0⟩ = minutesToMicros 80 ∧
    (classifyBoss ⟨"170", 80, 5⟩
        (some ⟨some (TsStr.valid 0 (some 0)), none, none, some "u"⟩)
        (minutesToMicros 80)).map (fun p => (p.2, p.1.window_end)) =
      some (BState.due, "") := by
  refine ⟨by decide, by decide⟩

/-- C4 (amended): the boss with respawn=80m, window=5m killed at T is Due at
now = T+80m exactly; and in general the window display of a classified boss
holds the formatted window remaining exactly when the resolved spawn
instant is strictly before `now` (respawn remaining strictly negative) —
a Due boss whose respawn remaining is zero (or sub-second positive) has an
empty window display instead. -/
theorem c4_amended (boss : BossSchedule) (e : TimerEntry) (now : Int)
    (kd : PyDatetime) (hk : truthy e.kill_time = true)
    (hp : parse_timestamp e.kill_time = some kd) :
    ((classifyBoss ⟨"170", 80, 5⟩
        (some ⟨some (TsStr.valid 0 (some 0)), none, none, some "u"⟩)
        (minutesToMicros 80)).map Prod.snd = some BState.due) ∧
    (∀ (info : BossInfo) (st : BState),
      classifyBoss boss (some e) now = some (info, st) →
      info.window_end =
        if resolveSpawn boss e.spawn_time kd - now < 0 then
          format_remaining (TdInput.td
            (resolveWindowEnd boss e.window_end_time
              (resolveSpawn boss e.spawn_time kd) - now))
        else "") := by
  constructor
  · decide
  · intro info st h
    rw [classifyBoss_some boss e now kd hk hp] at h
    have hinfo : info =
        (classifyParsed boss e.spawn_time e.window_end_time kd
          (e.user.getD "N/A") now).1 := by
      have := congrArg (Option.map Prod.fst) h.symm
      simpa using this
    rw [hinfo, classifyParsed_info]
    have hiff : (resolveSpawn boss e.spawn_time kd - now ≠ 0 ∧
        resolveSpawn boss e.spawn_time kd - now ≤ 0) ↔
        resolveSpawn boss e.spawn_time kd - now < 0 := by omega
    rw [if_congr hiff rfl rfl]

/-- C4 witness: one minute after the spawn instant the boss is Due and the
window display holds the formatted window remaining ("4 mins"). -/
theorem c4_witness :
    ((classifyBoss ⟨"170", 80, 5⟩
        (some ⟨some (TsStr.valid 0 (some 0)), none, none, some "u"⟩)
        (minutesToMicros 80)).map Prod.snd = some BState.due) ∧
    (∀ (info : BossInfo) (st : BState),
      classifyBoss ⟨"170", 80, 5⟩
          (some ⟨some (TsStr.valid 0 (some 0)), none, none, some "u"⟩)
          (minutesToMicros 81) = some (info, st) →
      info.window_end = "4 mins") := by
  have h := c4_amended ⟨"170", 80, 5⟩
    ⟨some (TsStr.valid 0 (some 0)), none, none, some "u"⟩
    (minutesToMicros 81) ⟨0, some 0⟩ rfl rfl
  refine ⟨h.1, ?_⟩
  intro info st hc
  have := h.2 info st hc
  rw [this, if_pos (by decide)]
  decide

/-- C8: a reset at instant `now` writes `kill_time = now` (an instant, never
in the future of `now`), `spawn_time = kill_time + respawn_duration` and
`window_end_time = spawn_time + window_duration`; classifying the freshly
written entry at the same instant yields Upcoming with remaining seconds
equal to the full respawn duration. -/
theorem c8_reset (boss : BossSchedule) (now : Int) (username : String)
    (hres : 0 < boss.respawn_minutes) :
    parse_timestamp (reset boss now username).kill_time =
      some ⟨now, some 0⟩ ∧
    PyDatetime.instant ⟨now, some 0⟩ = now ∧
    parse_timestamp (reset boss now username).spawn_time =
      some ⟨now + minutesToMicros boss.respawn_minutes, some 0⟩ ∧
    parse_timestamp (reset boss now username).window_end_time =
      some ⟨now + minutesToMicros boss.respawn_minutes +
        minutesToMicros boss.window_minutes, some 0⟩ ∧
    ∃ info, classifyBoss boss (some (reset boss now username)) now =
        some (info, BState.upcoming) ∧
      info.respawn_seconds = some (60 * boss.respawn_minutes) ∧
      info.respawn =
        format_remaining (TdInput.td (minutesToMicros boss.respawn_minutes)) := by
  refine ⟨rfl, by simp [PyDatetime.instant], rfl, rfl, ?_⟩
  have hS : resolveSpawn boss (reset boss now username).spawn_time
      ⟨now, some 0⟩ = now + minutesToMicros boss.respawn_minutes := by
    unfold resolveSpawn reset
    simp [parse_timestamp, fromisoformat, truthy, PyDatetime.instant]
  have hk : truthy (reset boss now username).kill_time = true := rfl
  have hp : parse_timestamp (reset boss now username).kill_time =
      some ⟨now, some 0⟩ := rfl
  refine ⟨(classifyParsed boss (reset boss now username).spawn_time
    (reset boss now username).window_end_time ⟨now, some 0⟩
    ((reset boss now username).user.getD "N/A") now).1, ?_, ?_, ?_⟩
  · rw [classifyBoss_some boss (reset boss now username) now ⟨now, some 0⟩
      hk hp]
    have hst := classifyParsed_state boss
      (reset boss now username).spawn_time
      (reset boss now username).window_end_time ⟨now, some 0⟩
      ((reset boss now username).user.getD "N/A") now
    rw [hS] at hst
    rw [if_pos (by unfold minutesToMicros at *; omega :
      (1000000 : Int) ≤ now + minutesToMicros boss.respawn_minutes - now)]
      at hst
    rw [← hst]
  · rw [classifyParsed_info, hS]
    have : now + minutesToMicros boss.respawn_minutes - now =
        minutesToMicros boss.respawn_minutes := by omega
    rw [this, intSeconds_minutes boss.respawn_minutes (by omega)]
  · rw [classifyParsed_info, hS]
    have : now + minutesToMicros boss.respawn_minutes - now =
        minutesToMicros boss.respawn_minutes := by omega
    rw [this]

/-- C8 witness: resetting the 80-minute boss at instant 0 and classifying
at the same instant gives Upcoming with the full 4800 seconds remaining. -/
theorem c8_witness :
    parse_timestamp (reset ⟨"170", 80, 5⟩ 0 "u").kill_time =
      some ⟨0, some 0⟩ ∧
    ∃ info, classifyBoss ⟨"170", 80, 5⟩ (some (reset ⟨"170", 80, 5⟩ 0 "u")) 0 =
        some (info, BState.upcoming) ∧
      info.respawn_seconds = some (60 * 80) ∧
      info.respawn = format_remaining (TdInput.td (minutesToMicros 80)) := by
  have h := c8_reset ⟨"170", 80, 5⟩ 0 "u" (by decide)
  exact ⟨h.1, h.2.2.2.2⟩

end AxiomTimers
